import Mathlib

/-!
Shallow embedding of the incremental Pub/Sub → BigQuery fraud-detection
pipeline (`pubsub_to_bigquery_fraud_detection.py`).

Modelling choices:
* Python floats and JSON numbers are modelled as exact rationals `ℚ`.
* A numeric field on the wire is either a JSON number or a string; Python's
  `float(s)` on a string either parses it to a number or raises `ValueError`,
  so a string is carried together with its parse result (`Option ℚ`).
* A JSON object (the deserialized message payload, a Python dict) is the
  record `RawTxn`; an absent key is `none` (reading it raises `KeyError`).
* The watermark table is the list of `last_processed_timestamp` values that
  `update_watermark` has inserted (append-only rows); `SELECT MAX(...)` is
  `List.max?`.  `datetime(1970, 1, 1).timestamp()` is epoch zero, i.e. `0`.
* An exception raised inside a task makes the Airflow task fail; the
  downstream `insert_to_bigquery` task then does not run.  Fallible code is
  therefore embedded with `Option` / an explicit error constructor.
-/

namespace FraudPipeline

/-- Wire representation of one numeric JSON field: either a JSON number, or a
string carried together with the result of Python's `float` applied to it
(`some q` when the string parses to the number `q`, `none` when `float`
raises `ValueError`, as for `"not_a_number"`). -/
inductive Wire where
  | num (q : ℚ)
  | str (parsed : Option ℚ)
  deriving DecidableEq

/-- Value of Python's `float(x)` on a wire value: a number is returned as is,
a string yields its parse result or fails. -/
def floatOf : Wire → Option ℚ
  | Wire.num q => some q
  | Wire.str p => p

/-- Deserialized message payload (the Python dict produced by `json.loads`).
`none` in a field models an absent key; `detected_fraud` is absent on the
wire and only ever written by `process_transaction`. -/
structure RawTxn where
  type : String
  amount : Option Wire
  oldbalanceOrg : Option Wire
  newbalanceOrig : Option Wire
  oldbalanceDest : Option Wire
  newbalanceDest : Option Wire
  step : Option Int
  detected_fraud : Option Bool
  deriving DecidableEq

/-- View of a transaction after `process_transaction` has coerced the five
numeric fields with `float(...)`: the values `detect_fraud` reads. -/
structure Txn where
  type : String
  amount : ℚ
  oldbalanceOrg : ℚ
  newbalanceOrig : ℚ
  oldbalanceDest : ℚ
  newbalanceDest : ℚ
  deriving DecidableEq

/-- Embedding of `detect_fraud` (source lines 47–69).  Rule 3 of the source
(`type == 'TRANSFER' and amount < 10`) has a `pass` body and falls through,
so it contributes nothing and is omitted here.  `0.01` is the exact rational
`1/100`. -/
def detect_fraud (t : Txn) : Bool :=
  if t.type = "TRANSFER" ∧ t.amount > 200000 then true
  else if t.newbalanceOrig = 0 ∧ t.oldbalanceOrg > 0 then true
  else if |t.oldbalanceOrg - t.newbalanceOrig - t.amount| > 1 / 100 then true
  else false

/-- Reading a required numeric field from the dict and applying `float`:
`none` when the key is absent (`KeyError`) or the string does not parse
(`ValueError`). -/
def coerceField (w : Option Wire) : Option ℚ :=
  w.bind floatOf

/-- Embedding of `process_transaction` (source lines 71–85).  The Python
function assigns the coerced values and the verdict back into the argument
dict and returns that same dict, so on success the returned record is both
the return value and the post-state of the argument; `none` models the
exception raised when a required numeric field is absent or non-numeric. -/
def process_transaction (t : RawTxn) : Option RawTxn := do
  let a ← coerceField t.amount
  let ob ← coerceField t.oldbalanceOrg
  let nb ← coerceField t.newbalanceOrig
  let od ← coerceField t.oldbalanceDest
  let nd ← coerceField t.newbalanceDest
  let t1 : RawTxn :=
    { t with
      amount := some (Wire.num a)
      oldbalanceOrg := some (Wire.num ob)
      newbalanceOrig := some (Wire.num nb)
      oldbalanceDest := some (Wire.num od)
      newbalanceDest := some (Wire.num nd) }
  some { t1 with detected_fraud := some (detect_fraud ⟨t.type, a, ob, nb, od, nd⟩) }

/-- Epoch zero, `datetime(1970, 1, 1).timestamp()`. -/
def epochZero : Int := 0

/-- Embedding of `get_last_watermark` (source lines 25–32): `SELECT MAX(...)`
over the watermark table, with the Python truthiness guard
`result[0] if result and result[0] else epoch` (an empty table yields `NULL`,
and a stored maximum of `0` is falsy; both fall back to epoch zero). -/
def get_last_watermark (store : List Int) : Int :=
  match store.max? with
  | none => epochZero
  | some m => if m ≠ 0 then m else epochZero

/-- Embedding of `update_watermark` (source lines 34–46): inserts one new row
into the watermark table (append-only). -/
def update_watermark (store : List Int) (v : Int) : List Int :=
  store ++ [v]

/-- One pulled queue message: its acknowledgment id and the result of
`json.loads` on its payload (`none` when deserialization raises). -/
structure Message where
  ackId : Nat
  data : Option RawTxn
  deriving DecidableEq

/-- Reading `data.get('step', 0)` from a deserialized payload. -/
def stepOf (t : RawTxn) : Int :=
  t.step.getD 0

/-- Outcome of the message loop of `pull_and_process_messages`: on success
the processed batch, the candidate watermark and the acknowledged ids, in
order; on an exception, the ids acknowledged before the raise (the loop acks
each message only after its own processing, so the failing message itself is
not acknowledged). -/
inductive PullResult where
  | ok (pd : List RawTxn) (nw : Int) (acks : List Nat)
  | err (acks : List Nat)
  deriving DecidableEq

/-- Embedding of the `for message in messages` loop of
`pull_and_process_messages` (source lines 98–107), with the running
accumulators `processed_data`, `new_watermark` and the acknowledged ids. -/
def pullGo (w0 : Int) : List Message → List RawTxn → Int → List Nat → PullResult
  | [], pd, nw, acks => PullResult.ok pd nw acks
  | m :: rest, pd, nw, acks =>
    match m.data with
    | none => PullResult.err acks
    | some d =>
      if stepOf d > w0 then
        match process_transaction d with
        | none => PullResult.err acks
        | some pt => pullGo w0 rest (pd ++ [pt]) (max nw (stepOf d)) (acks ++ [m.ackId])
      else
        pullGo w0 rest pd nw (acks ++ [m.ackId])

/-- The full loop, started from the source's initial accumulators:
`processed_data = []`, `new_watermark = last_watermark`. -/
def pullLoop (w0 : Int) (msgs : List Message) : PullResult :=
  pullGo w0 msgs [] w0 []

/-- Externally visible state across one cycle: the watermark table rows, the
acknowledged message ids, and the rows committed to the target table. -/
structure PipelineState where
  store : List Int
  acked : List Nat
  committed : List RawTxn
  deriving DecidableEq

/-- Embedding of the task `pull_and_process_messages` (source lines 87–112):
read the watermark, run the loop, and on loop success insert the new
watermark row when it advanced.  The second component is the task's return
value (the processed batch handed to the downstream task via XCom), `none`
when the task raised. -/
def pull_and_process (s : PipelineState) (msgs : List Message) :
    PipelineState × Option (List RawTxn) :=
  let w0 := get_last_watermark s.store
  match pullLoop w0 msgs with
  | PullResult.err acks => ({ s with acked := s.acked ++ acks }, none)
  | PullResult.ok pd nw acks =>
    let s1 : PipelineState := { s with acked := s.acked ++ acks }
    if nw > w0 then ({ s1 with store := update_watermark s1.store nw }, some pd)
    else (s1, some pd)

/-- Embedding of the task `insert_to_bigquery` (source lines 114–135):
an empty batch returns without inserting; otherwise the insert either
commits every row or raises (`none`).  `insertOk` is the environment's
verdict on the warehouse write of this cycle. -/
def insert_to_bigquery (insertOk : Bool) (s : PipelineState) (pd : List RawTxn) :
    Option PipelineState :=
  if pd.isEmpty then some s
  else if insertOk then some { s with committed := s.committed ++ pd }
  else none

/-- One scheduled DAG cycle: `pull_and_process_messages >> insert_to_bigquery`.
If the pull task raises, the insert task does not run; the Bool records
whether the whole cycle succeeded. -/
def runCycle (insertOk : Bool) (msgs : List Message) (s : PipelineState) :
    PipelineState × Bool :=
  match pull_and_process s msgs with
  | (s1, none) => (s1, false)
  | (s1, some pd) =>
    match insert_to_bigquery insertOk s1 pd with
    | none => (s1, false)
    | some s2 => (s2, true)

/-- Contribution of one pulled message to `processed_data`: `some` of its
processed transaction when it deserializes, passes the watermark filter and
coerces, `none` otherwise. -/
def msgContribution (w0 : Int) (m : Message) : Option RawTxn :=
  m.data.bind fun d => if stepOf d > w0 then process_transaction d else none

/-- Whether a pulled message passes the watermark filter `step > w0`. -/
def includedMsg (w0 : Int) (m : Message) : Bool :=
  match m.data with
  | some d => decide (stepOf d > w0)
  | none => false

/-- The `step` value of a pulled message (0 when undeserializable, matching
`data.get` only where it is never used on such a message). -/
def msgStep (m : Message) : Int :=
  (m.data.map stepOf).getD 0

/-- Whether one pulled message can be handled by the loop without an
exception: it deserializes, and if it passes the watermark filter its
numeric fields coerce. -/
def msgWf (w0 : Int) (m : Message) : Bool :=
  match m.data with
  | none => false
  | some d => !(decide (stepOf d > w0)) || (process_transaction d).isSome

/-- Failure condition of the loop at one message: deserialization raises, or
the message passes the filter and a numeric field fails to coerce. -/
def msgFails (w0 : Int) (m : Message) : Prop :=
  m.data = none ∨ ∃ d, m.data = some d ∧ stepOf d > w0 ∧ process_transaction d = none

/-- Example payload: a high-value transfer (rule 1 fires) carrying the given
`step`; used as a concrete queue message in witnesses. -/
def wtx (st : Int) : RawTxn :=
  { type := "TRANSFER"
    amount := some (Wire.num 300000)
    oldbalanceOrg := some (Wire.num 500000)
    newbalanceOrig := some (Wire.num 200000)
    oldbalanceDest := some (Wire.num 0)
    newbalanceDest := some (Wire.num 300000)
    step := some st
    detected_fraud := none }

/-- The record `process_transaction` produces from `wtx st`. -/
def wtxOut (st : Int) : RawTxn :=
  { wtx st with detected_fraud := some true }

/-- Example payload with no `step` key (so `data.get` yields 0) and no
numeric fields. -/
def dzero : RawTxn :=
  { type := "PAYMENT", amount := none, oldbalanceOrg := none, newbalanceOrig := none,
    oldbalanceDest := none, newbalanceDest := none, step := none, detected_fraud := none }

/-- Example payload whose `amount` is the unparseable string
`"not_a_number"`, so `float(transaction['amount'])` raises. -/
def badTxn : RawTxn :=
  { type := "TRANSFER"
    amount := some (Wire.str none)
    oldbalanceOrg := some (Wire.num 100)
    newbalanceOrig := some (Wire.num 0)
    oldbalanceDest := some (Wire.num 0)
    newbalanceDest := some (Wire.num 100)
    step := some 3
    detected_fraud := none }

/-- Example payload whose `amount` arrives as the numeric string
`"300000"`; processing coerces it to a number in place. -/
def mutTxn : RawTxn :=
  { type := "TRANSFER"
    amount := some (Wire.str (some 300000))
    oldbalanceOrg := some (Wire.num 300000)
    newbalanceOrig := some (Wire.num 0)
    oldbalanceDest := some (Wire.num 0)
    newbalanceDest := some (Wire.num 300000)
    step := some 1
    detected_fraud := none }

/-- Example payload: a cash-out that drains the account (rule 2 fires). -/
def drainTxn : RawTxn :=
  { type := "CASH_OUT"
    amount := some (Wire.num 100)
    oldbalanceOrg := some (Wire.num 100)
    newbalanceOrig := some (Wire.num 0)
    oldbalanceDest := some (Wire.num 0)
    newbalanceDest := some (Wire.num 100)
    step := some 2
    detected_fraud := none }

/-- The record `process_transaction` produces from `drainTxn`. -/
def drainOut : RawTxn :=
  { drainTxn with detected_fraud := some true }

/-! ### Helper lemmas about the watermark store and the rule engine -/

theorem get_last_watermark_spec (l : List Int) (h : l ≠ []) :
    get_last_watermark l ∈ l ∧ ∀ v ∈ l, v ≤ get_last_watermark l := by
  obtain ⟨M, hM⟩ : ∃ M, l.max? = some M := by
    cases hm : l.max? with
    | none => exact absurd (List.max?_eq_none_iff.mp hm) h
    | some M => exact ⟨M, rfl⟩
  have hmem : M ∈ l := List.max?_mem (fun a b => max_choice a b) hM
  have hle : ∀ v ∈ l, v ≤ M :=
    (List.max?_le_iff (fun a b c => max_le_iff) hM).mp le_rfl
  have hglw : get_last_watermark l = M := by
    by_cases h0 : M = 0
    · simp [get_last_watermark, hM, h0, epochZero]
    · simp [get_last_watermark, hM, h0]
  rw [hglw]
  exact ⟨hmem, hle⟩

theorem get_last_watermark_nonneg (l : List Int) (h : ∀ v ∈ l, 0 ≤ v) :
    0 ≤ get_last_watermark l := by
  rcases eq_or_ne l [] with rfl | hne
  · simp [get_last_watermark, epochZero, List.max?]
  · exact h _ (get_last_watermark_spec l hne).1

theorem foldl_update_watermark (s0 vs : List Int) :
    vs.foldl update_watermark s0 = s0 ++ vs := by
  induction vs generalizing s0 with
  | nil => simp
  | cons v vs ih => simp [update_watermark, ih]

theorem pullGo_ok_spec (w0 : Int) (msgs : List Message) :
    ∀ (pd : List RawTxn) (nw : Int) (acks : List Nat) (P : List RawTxn) (N : Int)
      (A : List Nat),
      pullGo w0 msgs pd nw acks = PullResult.ok P N A →
      A = acks ++ msgs.map Message.ackId ∧
      P = pd ++ msgs.filterMap (msgContribution w0) ∧
      N = (msgs.filter (includedMsg w0)).foldl (fun a m => max a (msgStep m)) nw := by
  induction msgs with
  | nil =>
    intro pd nw acks P N A h
    simp only [pullGo, PullResult.ok.injEq] at h
    simp [← h.1, ← h.2.1, ← h.2.2]
  | cons m rest ih =>
    intro pd nw acks P N A h
    cases hd : m.data with
    | none => simp [pullGo, hd] at h
    | some d =>
      by_cases hgt : stepOf d > w0
      · cases hp : process_transaction d with
        | none => simp [pullGo, hd, hgt, hp] at h
        | some pt =>
          simp only [pullGo, hd, hgt, hp, if_true, if_pos] at h
          obtain ⟨hA, hP, hN⟩ := ih _ _ _ _ _ _ h
          refine ⟨?_, ?_, ?_⟩
          · simp [hA]
          · simp [hP, msgContribution, hd, hgt, hp]
          · simp [hN, List.filter_cons, includedMsg, hd, hgt, msgStep]
      · simp only [pullGo, hd, hgt, if_false, if_neg, not_false_iff] at h
        obtain ⟨hA, hP, hN⟩ := ih _ _ _ _ _ _ h
        refine ⟨?_, ?_, ?_⟩
        · simp [hA]
        · simp [hP, msgContribution, hd, hgt]
        · simp [hN, List.filter_cons, includedMsg, hd, hgt]

theorem pullGo_ok_of_wf (w0 : Int) :
    ∀ (msgs : List Message), (∀ m ∈ msgs, msgWf w0 m = true) →
      ∀ (pd : List RawTxn) (nw : Int) (acks : List Nat),
        ∃ P N A, pullGo w0 msgs pd nw acks = PullResult.ok P N A := by
  intro msgs
  induction msgs with
  | nil => exact fun _ pd nw acks => ⟨pd, nw, acks, rfl⟩
  | cons m rest ih =>
    intro hwf pd nw acks
    have hm := hwf m (List.mem_cons_self m rest)
    have hrest : ∀ m' ∈ rest, msgWf w0 m' = true := fun m' h' =>
      hwf m' (List.mem_cons_of_mem _ h')
    cases hd : m.data with
    | none => simp [msgWf, hd] at hm
    | some d =>
      by_cases hgt : stepOf d > w0
      · cases hp : process_transaction d with
        | none => simp [msgWf, hd, hgt, hp] at hm
        | some pt =>
          obtain ⟨P, N, A, hres⟩ := ih hrest (pd ++ [pt]) (max nw (stepOf d))
            (acks ++ [m.ackId])
          exact ⟨P, N, A, by simp [pullGo, hd, hgt, hp, hres]⟩
      · obtain ⟨P, N, A, hres⟩ := ih hrest pd nw (acks ++ [m.ackId])
        exact ⟨P, N, A, by simp [pullGo, hd, hgt, hres]⟩

theorem pullGo_err_of_fail (w0 : Int) :
    ∀ (msgs : List Message), (∃ m ∈ msgs, msgFails w0 m) →
      ∀ (pd : List RawTxn) (nw : Int) (acks : List Nat),
        ∃ A, pullGo w0 msgs pd nw acks = PullResult.err A := by
  intro msgs
  induction msgs with
  | nil =>
    rintro ⟨m, hm, -⟩
    simp at hm
  | cons m rest ih =>
    rintro ⟨mf, hmem, hfail⟩ pd nw acks
    cases hd : m.data with
    | none => exact ⟨acks, by simp [pullGo, hd]⟩
    | some d =>
      by_cases hgt : stepOf d > w0
      · cases hp : process_transaction d with
        | none => exact ⟨acks, by simp [pullGo, hd, hgt, hp]⟩
        | some pt =>
          have hmem' : mf ∈ rest := by
            rcases List.mem_cons.mp hmem with rfl | h
            · rcases hfail with h0 | ⟨d', hd', hgt', hp'⟩
              · rw [hd] at h0; cases h0
              · rw [hd] at hd'
                injection hd' with hdd
                subst hdd
                rw [hp] at hp'
                cases hp'
            · exact h
          obtain ⟨A, hres⟩ := ih ⟨mf, hmem', hfail⟩ (pd ++ [pt]) (max nw (stepOf d))
            (acks ++ [m.ackId])
          exact ⟨A, by simp [pullGo, hd, hgt, hp, hres]⟩
      · have hmem' : mf ∈ rest := by
          rcases List.mem_cons.mp hmem with rfl | h
          · rcases hfail with h0 | ⟨d', hd', hgt', -⟩
            · rw [hd] at h0; cases h0
            · rw [hd] at hd'
              injection hd' with hdd
              subst hdd
              exact absurd hgt' hgt
          · exact h
        obtain ⟨A, hres⟩ := ih ⟨mf, hmem', hfail⟩ pd nw (acks ++ [m.ackId])
        exact ⟨A, by simp [pullGo, hd, hgt, hres]⟩

theorem le_foldl_max :
    ∀ (l : List Message) (a : Int), a ≤ l.foldl (fun x m => max x (msgStep m)) a
  | [], a => le_refl a
  | m :: rest, a =>
    le_trans (le_max_left a (msgStep m)) (le_foldl_max rest (max a (msgStep m)))

theorem filterMap_contribution_filter (w0 : Int) (msgs : List Message) :
    msgs.filterMap (msgContribution w0) =
      (msgs.filter (includedMsg w0)).filterMap (msgContribution w0) := by
  induction msgs with
  | nil => rfl
  | cons m rest ih =>
    cases hd : m.data with
    | none =>
      simp [List.filterMap_cons, List.filter_cons, msgContribution, includedMsg, hd, ih]
    | some d =>
      by_cases hgt : stepOf d > w0 <;>
        simp [List.filterMap_cons, List.filter_cons, msgContribution, includedMsg, hd, hgt, ih]

theorem detect_fraud_iff (t : Txn) :
    detect_fraud t = true ↔
      (t.type = "TRANSFER" ∧ t.amount > 200000) ∨
      (t.newbalanceOrig = 0 ∧ t.oldbalanceOrg > 0) ∨
      |t.oldbalanceOrg - t.newbalanceOrig - t.amount| > 1 / 100 := by
  unfold detect_fraud
  split_ifs <;> simp_all

/-! ### Claim theorems: rule engine and watermark store -/

/-- C3: for every well-formed transaction, the fraud verdict equals the
logical OR of the applicable rules — high-value transfer, account drained,
balance mismatch — with the rapid-micro-transfer rule contributing false;
in particular every TRANSFER with amount > 200000 is flagged fraud. -/
theorem detect_fraud_or_of_rules (t : Txn) :
    (detect_fraud t = true ↔
      (t.type = "TRANSFER" ∧ t.amount > 200000) ∨
      (t.newbalanceOrig = 0 ∧ t.oldbalanceOrg > 0) ∨
      |t.oldbalanceOrg - t.newbalanceOrig - t.amount| > 1 / 100) ∧
    (t.type = "TRANSFER" → t.amount > 200000 → detect_fraud t = true) :=
  ⟨detect_fraud_iff t,
   fun h1 h2 => (detect_fraud_iff t).mpr (Or.inl ⟨h1, h2⟩)⟩

/-- Witness for C3: a TRANSFER of 300000 is flagged. -/
theorem detect_fraud_or_of_rules_witness :
    detect_fraud ⟨"TRANSFER", 300000, 300000, 0, 0, 300000⟩ = true :=
  (detect_fraud_or_of_rules ⟨"TRANSFER", 300000, 300000, 0, 0, 300000⟩).2
    (by decide) (by decide)

/-- C7: the balance-mismatch rule flags exactly when
|oldbalanceOrg - newbalanceOrig - amount| strictly exceeds 0.01 = 1/100:
above the tolerance the verdict is fraud regardless of the other rules, and
at or below it (including exactly at the boundary) the verdict is fraud only
if one of the other two rules fires. -/
theorem balance_mismatch_rule (t : Txn) :
    (|t.oldbalanceOrg - t.newbalanceOrig - t.amount| > 1 / 100 →
      detect_fraud t = true) ∧
    (|t.oldbalanceOrg - t.newbalanceOrig - t.amount| ≤ 1 / 100 →
      (detect_fraud t = true ↔
        (t.type = "TRANSFER" ∧ t.amount > 200000) ∨
        (t.newbalanceOrig = 0 ∧ t.oldbalanceOrg > 0))) := by
  constructor
  · intro h
    exact (detect_fraud_iff t).mpr (Or.inr (Or.inr h))
  · intro hle
    constructor
    · intro h
      rcases (detect_fraud_iff t).mp h with h1 | h2 | h3
      · exact Or.inl h1
      · exact Or.inr h2
      · exact absurd h3 (not_lt.mpr hle)
    · intro h
      rcases h with h1 | h2
      · exact (detect_fraud_iff t).mpr (Or.inl h1)
      · exact (detect_fraud_iff t).mpr (Or.inr (Or.inl h2))

/-- Witness for C7: a difference of exactly 0.010001 is flagged and a
difference of exactly 0.01 is not (no other rule applies to either). -/
theorem balance_mismatch_rule_witness :
    detect_fraud ⟨"PAYMENT", 1 / 100, 2, 1979999 / 1000000, 0, 0⟩ = true ∧
    detect_fraud ⟨"PAYMENT", 1 / 100, 2, 198 / 100, 0, 0⟩ ≠ true := by
  constructor
  · exact (balance_mismatch_rule ⟨"PAYMENT", 1 / 100, 2, 1979999 / 1000000, 0, 0⟩).1
      (by rw [gt_iff_lt, lt_abs]; norm_num)
  · intro hcontra
    have h := ((balance_mismatch_rule ⟨"PAYMENT", 1 / 100, 2, 198 / 100, 0, 0⟩).2
      (by rw [abs_le]; constructor <;> norm_num)).1 hcontra
    rcases h with ⟨h1, _⟩ | ⟨h2, _⟩
    · exact absurd h1 (by decide)
    · exact absurd h2 (by norm_num)

/-- C9: reading the watermark from an empty store yields epoch zero, i.e. 0;
from a non-empty store it yields the maximum recorded value (an element of
the store bounding every recorded value). -/
theorem read_watermark_empty_or_max :
    get_last_watermark [] = 0 ∧
    ∀ l : List Int, l ≠ [] →
      get_last_watermark l ∈ l ∧ ∀ v ∈ l, v ≤ get_last_watermark l :=
  ⟨rfl, fun l h => get_last_watermark_spec l h⟩

/-- Witness for C9: reading back the store [3, 9, 4]. -/
theorem read_watermark_empty_or_max_witness :
    get_last_watermark ([3, 9, 4] : List Int) ∈ ([3, 9, 4] : List Int) ∧
    ∀ v ∈ ([3, 9, 4] : List Int), v ≤ get_last_watermark ([3, 9, 4] : List Int) :=
  read_watermark_empty_or_max.2 [3, 9, 4] (by decide)

/-- C6: recording any non-empty sequence of watermark advances and reading
back yields the maximum of all recorded values, and the result is
insensitive to the order of the writes (hence also to duplicated writes,
which only permute/repeat list elements). -/
theorem watermark_store_max_insensitive (vs vs' : List Int) (hne : vs ≠ [])
    (hperm : vs.Perm vs') :
    get_last_watermark (vs.foldl update_watermark []) ∈ vs ∧
    (∀ v ∈ vs, v ≤ get_last_watermark (vs.foldl update_watermark [])) ∧
    get_last_watermark (vs.foldl update_watermark []) =
      get_last_watermark (vs'.foldl update_watermark []) := by
  have h1 : vs.foldl update_watermark [] = vs := by
    simpa using foldl_update_watermark [] vs
  have h2 : vs'.foldl update_watermark [] = vs' := by
    simpa using foldl_update_watermark [] vs'
  have hne' : vs' ≠ [] := by
    intro h
    subst h
    exact hne hperm.eq_nil
  rw [h1, h2]
  obtain ⟨hamem, hale⟩ := get_last_watermark_spec vs hne
  obtain ⟨hbmem, hble⟩ := get_last_watermark_spec vs' hne'
  refine ⟨hamem, hale, le_antisymm ?_ ?_⟩
  · exact hble _ (hperm.mem_iff.mp hamem)
  · exact hale _ (hperm.mem_iff.mpr hbmem)

/-- Witness for C6: advancing with [5, 3, 7, 1] and with the reordering
[1, 7, 3, 5] reads back the same maximum. -/
theorem watermark_store_max_insensitive_witness :
    get_last_watermark (([5, 3, 7, 1] : List Int).foldl update_watermark []) ∈
      ([5, 3, 7, 1] : List Int) ∧
    (∀ v ∈ ([5, 3, 7, 1] : List Int),
      v ≤ get_last_watermark (([5, 3, 7, 1] : List Int).foldl update_watermark [])) ∧
    get_last_watermark (([5, 3, 7, 1] : List Int).foldl update_watermark []) =
      get_last_watermark (([1, 7, 3, 5] : List Int).foldl update_watermark []) :=
  watermark_store_max_insensitive [5, 3, 7, 1] [1, 7, 3, 5] (by decide) (by decide)

/-! ### Claim theorems: batch processing and cycle behaviour -/

/-- C5: when the pull loop of a cycle with starting watermark w0 completes,
exactly the messages with step > w0 are scored and included in the processed
batch, every pulled message (duplicates included) is acknowledged without the
duplicates being reprocessed, and the candidate new watermark is
max(w0, max step over included messages), hence at least w0. -/
theorem pull_filter_and_watermark (w0 : Int) (msgs : List Message)
    (P : List RawTxn) (N : Int) (A : List Nat)
    (hok : pullLoop w0 msgs = PullResult.ok P N A) :
    A = msgs.map Message.ackId ∧
    P = (msgs.filter (includedMsg w0)).filterMap (msgContribution w0) ∧
    N = (msgs.filter (includedMsg w0)).foldl (fun a m => max a (msgStep m)) w0 ∧
    w0 ≤ N := by
  obtain ⟨hA, hP, hN⟩ := pullGo_ok_spec w0 msgs [] w0 [] P N A hok
  refine ⟨by simpa using hA, ?_, hN, hN ▸ le_foldl_max _ w0⟩
  rw [show P = msgs.filterMap (msgContribution w0) by simpa using hP]
  exact filterMap_contribution_filter w0 msgs

/-- Witness for C5: watermark 100 with steps 90, 101, 105 — only 101 and 105
are processed, all three messages are acknowledged, watermark becomes 105. -/
theorem pull_filter_and_watermark_witness :
    ([10, 11, 12] : List Nat) =
      [⟨10, some (wtx 90)⟩, ⟨11, some (wtx 101)⟩, ⟨12, some (wtx 105)⟩].map Message.ackId ∧
    [wtxOut 101, wtxOut 105] =
      ([⟨10, some (wtx 90)⟩, ⟨11, some (wtx 101)⟩, ⟨12, some (wtx 105)⟩].filter
        (includedMsg 100)).filterMap (msgContribution 100) ∧
    (105 : Int) =
      ([⟨10, some (wtx 90)⟩, ⟨11, some (wtx 101)⟩, ⟨12, some (wtx 105)⟩].filter
        (includedMsg 100)).foldl (fun a m => max a (msgStep m)) 100 ∧
    (100 : Int) ≤ 105 :=
  pull_filter_and_watermark 100
    [⟨10, some (wtx 90)⟩, ⟨11, some (wtx 101)⟩, ⟨12, some (wtx 105)⟩]
    [wtxOut 101, wtxOut 105] 105 [10, 11, 12] (by decide)

/-- C10: a deserializable message whose step is 0 (in particular when the
step key is missing and defaults to 0) never passes the watermark filter as
long as every stored watermark value is non-negative — including the very
first run against an empty store, whose watermark reads as 0 — so it
contributes nothing to the processed batch, yet its id is acknowledged: the
message is permanently discarded without being scored. -/
theorem step_zero_message_discarded (s : PipelineState) (msgs : List Message)
    (m : Message) (d : RawTxn) (P : List RawTxn) (N : Int) (A : List Nat)
    (hstore : ∀ v ∈ s.store, 0 ≤ v) (hm : m ∈ msgs) (hd : m.data = some d)
    (hstep : stepOf d = 0)
    (hok : pullLoop (get_last_watermark s.store) msgs = PullResult.ok P N A) :
    m.ackId ∈ A ∧
    includedMsg (get_last_watermark s.store) m = false ∧
    msgContribution (get_last_watermark s.store) m = none ∧
    P = msgs.filterMap (msgContribution (get_last_watermark s.store)) := by
  have hw0 : 0 ≤ get_last_watermark s.store := get_last_watermark_nonneg s.store hstore
  have hng : ¬ stepOf d > get_last_watermark s.store := by
    rw [hstep]
    exact not_lt.mpr hw0
  obtain ⟨hA, hP, -⟩ :=
    pullGo_ok_spec (get_last_watermark s.store) msgs [] (get_last_watermark s.store) [] P N A hok
  refine ⟨?_, ?_, ?_, by simpa using hP⟩
  · rw [hA]
    simp only [List.nil_append]
    exact List.mem_map_of_mem Message.ackId hm
  · simp [includedMsg, hd, hng]
  · simp [msgContribution, hd, hng]

/-- Witness for C10: first run (empty store), one message with no step key:
excluded from the batch, acknowledged anyway. -/
theorem step_zero_message_discarded_witness :
    (⟨21, some dzero⟩ : Message).ackId ∈ ([21] : List Nat) ∧
    includedMsg (get_last_watermark []) ⟨21, some dzero⟩ = false ∧
    msgContribution (get_last_watermark []) ⟨21, some dzero⟩ = none ∧
    ([] : List RawTxn) =
      [(⟨21, some dzero⟩ : Message)].filterMap (msgContribution (get_last_watermark [])) :=
  step_zero_message_discarded ⟨[], [], []⟩ [⟨21, some dzero⟩] ⟨21, some dzero⟩ dzero
    [] 0 [21] (by decide) (by decide) rfl rfl (by decide)

/-- C1 counterexample: a cycle whose warehouse insert fails (the Sink Writer
never reports success) still acknowledges the pulled message during the pull
task, with nothing committed — refuting that acknowledgment happens only
after a successful commit. -/
theorem ack_before_commit_cex :
    (runCycle false [⟨1, some (wtx 5)⟩] ⟨[], [], []⟩).2 = false ∧
    ((runCycle false [⟨1, some (wtx 5)⟩] ⟨[], [], []⟩).1).committed = [] ∧
    ((runCycle false [⟨1, some (wtx 5)⟩] ⟨[], [], []⟩).1).acked = [1] := by
  decide

/-- C1 amended: whenever the pull loop completes, every pulled message
(duplicate or newly processed) is acknowledged already in the pull task,
regardless of whether the downstream warehouse insert succeeds. -/
theorem ack_during_pull_regardless_of_commit (insertOk : Bool) (msgs : List Message)
    (s : PipelineState) (P : List RawTxn) (N : Int) (A : List Nat)
    (hok : pullLoop (get_last_watermark s.store) msgs = PullResult.ok P N A) :
    ((runCycle insertOk msgs s).1).acked = s.acked ++ msgs.map Message.ackId := by
  have hA : A = msgs.map Message.ackId := by
    simpa using
      (pullGo_ok_spec (get_last_watermark s.store) msgs [] (get_last_watermark s.store)
        [] P N A hok).1
  simp only [runCycle, pull_and_process, pullLoop] at hok ⊢
  rw [hok]
  by_cases hnw : N > get_last_watermark s.store <;> cases insertOk <;> cases P <;>
    simp [hnw, insert_to_bigquery, hA]

/-- Witness for C1 amended: failing insert, message still acknowledged. -/
theorem ack_during_pull_regardless_of_commit_witness :
    ((runCycle false [⟨31, some (wtx 7)⟩] ⟨[], [], []⟩).1).acked =
      ([] : List Nat) ++ [(⟨31, some (wtx 7)⟩ : Message)].map Message.ackId :=
  ack_during_pull_regardless_of_commit false [⟨31, some (wtx 7)⟩] ⟨[], [], []⟩
    [wtxOut 7] 7 [31] (by decide)

/-- C2 counterexample: a cycle whose warehouse insert fails (nothing is ever
committed) still advances the stored watermark from 0 to 7 during the pull
task — refuting that the watermark is unchanged when the insert has not
succeeded. -/
theorem watermark_advance_before_commit_cex :
    (runCycle false [⟨2, some (wtx 7)⟩] ⟨[], [], []⟩).2 = false ∧
    ((runCycle false [⟨2, some (wtx 7)⟩] ⟨[], [], []⟩).1).committed = [] ∧
    get_last_watermark ((runCycle false [⟨2, some (wtx 7)⟩] ⟨[], [], []⟩).1).store = 7 ∧
    get_last_watermark ([] : List Int) = 0 := by
  decide

/-- C2 amended: the watermark row is written at the end of the pull task,
before the warehouse insert runs and regardless of whether it succeeds:
after any cycle whose pull loop completes with candidate watermark N, the
store gained the row N exactly when N exceeds the starting watermark. -/
theorem watermark_advance_in_pull_phase (insertOk : Bool) (msgs : List Message)
    (s : PipelineState) (P : List RawTxn) (N : Int) (A : List Nat)
    (hok : pullLoop (get_last_watermark s.store) msgs = PullResult.ok P N A) :
    ((runCycle insertOk msgs s).1).store =
      if N > get_last_watermark s.store then update_watermark s.store N else s.store := by
  simp only [runCycle, pull_and_process, pullLoop] at hok ⊢
  rw [hok]
  by_cases hnw : N > get_last_watermark s.store <;> cases insertOk <;> cases P <;>
    simp [hnw, insert_to_bigquery, update_watermark]

/-- Witness for C2 amended: successful pull with step 9 from an empty store
appends the watermark row 9. -/
theorem watermark_advance_in_pull_phase_witness :
    ((runCycle true [⟨41, some (wtx 9)⟩] ⟨[], [], []⟩).1).store =
      if (9 : Int) > get_last_watermark ([] : List Int) then
        update_watermark ([] : List Int) 9
      else ([] : List Int) :=
  watermark_advance_in_pull_phase true [⟨41, some (wtx 9)⟩] ⟨[], [], []⟩
    [wtxOut 9] 9 [41] (by decide)

/-- C4 counterexample: a batch holding one message whose amount is the
unparseable string "not_a_number" (step 3 > watermark 0) followed by a valid
message: the whole pull task raises — the valid message is not processed,
nothing is committed, the watermark does not advance, and not even the bad
message is acknowledged — refuting that such a message is dead-lettered
while the cycle still commits the remaining valid messages. -/
theorem malformed_message_aborts_batch_cex :
    pullLoop 0 [⟨61, some badTxn⟩, ⟨62, some (wtx 4)⟩] = PullResult.err [] ∧
    (runCycle true [⟨61, some badTxn⟩, ⟨62, some (wtx 4)⟩] ⟨[], [], []⟩).2 = false ∧
    ((runCycle true [⟨61, some badTxn⟩, ⟨62, some (wtx 4)⟩] ⟨[], [], []⟩).1).committed = [] ∧
    ((runCycle true [⟨61, some badTxn⟩, ⟨62, some (wtx 4)⟩] ⟨[], [], []⟩).1).store = [] ∧
    ((runCycle true [⟨61, some badTxn⟩, ⟨62, some (wtx 4)⟩] ⟨[], [], []⟩).1).acked = [] := by
  decide

/-- C4 amended: there is no dead-letter path — one message that fails to
deserialize, or that passes the watermark filter with a non-numeric or
missing required numeric field, makes the whole cycle fail: nothing is
committed and the watermark store is unchanged. -/
theorem malformed_message_aborts_cycle (insertOk : Bool) (s : PipelineState)
    (msgs : List Message) (m : Message) (hm : m ∈ msgs)
    (hfail : msgFails (get_last_watermark s.store) m) :
    (runCycle insertOk msgs s).2 = false ∧
    ((runCycle insertOk msgs s).1).committed = s.committed ∧
    ((runCycle insertOk msgs s).1).store = s.store := by
  obtain ⟨A, herr⟩ :=
    pullGo_err_of_fail (get_last_watermark s.store) msgs ⟨m, hm, hfail⟩ []
      (get_last_watermark s.store) []
  simp [runCycle, pull_and_process, pullLoop, herr]

/-- Witness for C4 amended: one undeserializable message fails the cycle. -/
theorem malformed_message_aborts_cycle_witness :
    (runCycle true [⟨51, none⟩] ⟨[], [], []⟩).2 = false ∧
    ((runCycle true [⟨51, none⟩] ⟨[], [], []⟩).1).committed = [] ∧
    ((runCycle true [⟨51, none⟩] ⟨[], [], []⟩).1).store = [] :=
  malformed_message_aborts_cycle true ⟨[], [], []⟩ [⟨51, none⟩] ⟨51, none⟩
    (by decide) (Or.inl rfl)

/-- C8 counterexample: `process_transaction` succeeds on a transaction whose
amount arrives as the numeric string "300000", and the record it returns —
which is the very dict passed in, mutated in place — differs from the
original input (the amount is now a number and `detected_fraud` is set),
refuting that the input record is unchanged after the call. -/
theorem process_transaction_mutates_cex :
    (process_transaction mutTxn).isSome = true ∧
    process_transaction mutTxn ≠ some mutTxn := by
  decide

/-- C8 amended: on success `process_transaction` returns its input record
mutated in place: the five numeric fields are overwritten with their decimal
coercions, `detected_fraud` is set, the other fields are kept — and when the
input had no `detected_fraud` key the record observed after the call differs
from the original input. -/
theorem process_transaction_post_state (t r : RawTxn)
    (h : process_transaction t = some r) :
    r.type = t.type ∧ r.step = t.step ∧
    r.amount = (coerceField t.amount).map (fun q => Wire.num q) ∧
    r.oldbalanceOrg = (coerceField t.oldbalanceOrg).map (fun q => Wire.num q) ∧
    r.newbalanceOrig = (coerceField t.newbalanceOrig).map (fun q => Wire.num q) ∧
    r.oldbalanceDest = (coerceField t.oldbalanceDest).map (fun q => Wire.num q) ∧
    r.newbalanceDest = (coerceField t.newbalanceDest).map (fun q => Wire.num q) ∧
    r.detected_fraud ≠ none ∧
    (t.detected_fraud = none → r ≠ t) := by
  rw [process_transaction] at h
  simp only [bind, Option.bind_eq_some] at h
  obtain ⟨a, ha, h⟩ := h
  obtain ⟨ob, hb, h⟩ := h
  obtain ⟨nb, hc, h⟩ := h
  obtain ⟨od, he, h⟩ := h
  obtain ⟨nd, hf, h⟩ := h
  injection h with hr
  subst hr
  refine ⟨rfl, rfl, by simp [ha], by simp [hb], by simp [hc], by simp [he],
    by simp [hf], by simp, ?_⟩
  intro hnone heq
  have : t.detected_fraud = some (detect_fraud ⟨t.type, a, ob, nb, od, nd⟩) := by
    conv in t.detected_fraud => rw [← heq]
  rw [hnone] at this
  cases this

/-- Witness for C8 amended: a drained-account cash-out whose processing
succeeds; the post-state record differs from the input. -/
theorem process_transaction_post_state_witness :
    drainOut.type = drainTxn.type ∧ drainOut.step = drainTxn.step ∧
    drainOut.amount = (coerceField drainTxn.amount).map (fun q => Wire.num q) ∧
    drainOut.oldbalanceOrg = (coerceField drainTxn.oldbalanceOrg).map (fun q => Wire.num q) ∧
    drainOut.newbalanceOrig = (coerceField drainTxn.newbalanceOrig).map (fun q => Wire.num q) ∧
    drainOut.oldbalanceDest = (coerceField drainTxn.oldbalanceDest).map (fun q => Wire.num q) ∧
    drainOut.newbalanceDest = (coerceField drainTxn.newbalanceDest).map (fun q => Wire.num q) ∧
    drainOut.detected_fraud ≠ none ∧
    (drainTxn.detected_fraud = none → drainOut ≠ drainTxn) :=
  process_transaction_post_state drainTxn drainOut (by decide)

end FraudPipeline
